import Mathlib

/-!
Shallow embedding of the `mongo-uri-query` Go library: the operator algebra
(`operator.go`), the extractor/normalizer and parser (`query.go`, parser file),
the value-conversion chain (`convert.go`), the field specifications
(`fields.go`) and the filter assembler (`query.go`), together with theorems
settling the specification's claims about them.

Go strings are modelled as `List Char`; the handful of `strings`-package
functions the library uses are reimplemented below with Go's semantics (for
the argument shapes the library actually passes, noted at each definition).
Go maps (`url.Values`, `fieldsMap`, `M`) are modelled as association lists
iterated in insertion order; Go's map iteration order is unspecified, and
every claim below is settled on inputs for which the iteration order is
immaterial (single key per map, or order-insensitive conclusions).
-/

namespace MongoQuery

/-- Go strings, modelled as lists of characters. -/
abbrev Str := List Char

/-- Convert a Lean string literal to the `Str` model. -/
def toStr (s : String) : Str := s.toList

/-- Go `strings.HasPrefix(s, pre)`. -/
def goHasPrefix : Str → Str → Bool
  | _, [] => true
  | [], _ :: _ => false
  | c :: s, p :: ps => c = p && goHasPrefix s ps

/-- Go `strings.HasSuffix(s, suf)`. -/
def goHasSuffix (s suf : Str) : Bool :=
  if suf.length ≤ s.length then goHasPrefix (s.drop (s.length - suf.length)) suf
  else false

/-- Go `strings.Index(s, sub)`: index of the first occurrence of `sub` in
`s`, `none` when absent (Go returns `-1`). -/
def goIndex : Str → Str → Option Nat
  | s, sub =>
    if goHasPrefix s sub then some 0
    else match s with
      | [] => none
      | _ :: t => (goIndex t sub).map Nat.succ

/-- Go `strings.Contains(s, sub)`. -/
def goContains (s sub : Str) : Bool := (goIndex s sub).isSome

/-- Go `strings.TrimPrefix(s, pre)`. -/
def goTrimPrefix (s pre : Str) : Str :=
  if goHasPrefix s pre then s.drop pre.length else s

/-- Go `strings.TrimSuffix(s, suf)`. -/
def goTrimSuffix (s suf : Str) : Str :=
  if goHasSuffix s suf then s.take (s.length - suf.length) else s

/-- Fuel-driven core of `goReplaceAll`; the fuel bounds the recursion depth so
that the definition is structural (and so kernel-reducible).  With
`fuel ≥ s.length` and a non-empty `old` (the library only ever replaces the
non-empty tokens `"[]"`, `"["` and `"]"`) it computes Go's
`strings.ReplaceAll(s, old, new)`. -/
def goReplaceAllAux (old nw : Str) : Nat → Str → Str
  | 0, s => s
  | fuel + 1, s =>
    if goHasPrefix s old && !old.isEmpty then
      nw ++ goReplaceAllAux old nw fuel (s.drop old.length)
    else match s with
      | [] => []
      | c :: t => c :: goReplaceAllAux old nw fuel t

/-- Go `strings.ReplaceAll(s, old, new)` for non-empty `old` (the only shape
the library uses: Go treats an empty `old` specially, inserting between
characters, which never occurs here). -/
def goReplaceAll (s old nw : Str) : Str := goReplaceAllAux old nw s.length s

/-- Fuel-driven core of `goSplit`, structural for the same reason as
`goReplaceAllAux`; with `fuel ≥ s.length` and non-empty `sep` it computes
Go's `strings.Split(s, sep)`. -/
def goSplitAux (sep : Str) : Nat → Str → List Str
  | 0, s => [s]
  | fuel + 1, s =>
    match goIndex s sep with
    | none => [s]
    | some i =>
      if sep.isEmpty then [s]
      else s.take i :: goSplitAux sep fuel (s.drop (i + sep.length))

/-- Go `strings.Split(s, sep)` for non-empty `sep` (the library only splits
on `","`). -/
def goSplit (s sep : Str) : List Str := goSplitAux sep s.length s

/-! ## Operator algebra (`operator.go`) -/

/-- The `operator` string type of `operator.go`. -/
abbrev Operator := Str

/-- Field/operator delimiter `"__"` (parser file, `const` block). -/
def delimiter : Str := toStr "__"

/-- Array value delimiter `","` (parser file, `const` block). -/
def arrayDelimiter : Str := toStr ","

/-- `ignoreCasePrefix = "i"`. -/
def ignoreCasePrefix : Str := toStr "i"

/-- `mongoOpPrefix = "$"`. -/
def mongoOpPrefix : Str := toStr "$"

def operatorIn : Operator := toStr "in"

def operatorInArray : Operator := toStr "[]"

def operatorEqualArray : Operator := toStr "eqa"

def operatorEquals : Operator := toStr "eq"

def operatorExists : Operator := toStr "exists"

def operatorGreaterThan : Operator := toStr "gt"

def operatorGreaterThanOrEquals : Operator := toStr "gte"

def operatorLessThan : Operator := toStr "lt"

def operatorLessThanOrEquals : Operator := toStr "lte"

def operatorNotEquals : Operator := toStr "ne"

/-- `operatorNotIn = "n" + operatorIn`. -/
def operatorNotIn : Operator := toStr "n" ++ operatorIn

def operatorAll : Operator := toStr "all"

/-- `operatorAllArray = operatorAll + operatorInArray`. -/
def operatorAllArray : Operator := operatorAll ++ operatorInArray

def operatorContains : Operator := toStr "co"

def operatorContainsIgnoreCase : Operator := ignoreCasePrefix ++ operatorContains

def operatorContainsIn : Operator := operatorContains ++ operatorIn

def operatorContainsInIgnoreCase : Operator := ignoreCasePrefix ++ operatorContainsIn

def operatorContainsInArray : Operator := operatorContains ++ operatorInArray

def operatorContainsInArrayIgnoreCase : Operator :=
  ignoreCasePrefix ++ operatorContainsInArray

def operatorRegex : Operator := toStr "re"

def operatorRegexIgnoreCase : Operator := ignoreCasePrefix ++ operatorRegex

def operatorRegexIn : Operator := operatorRegex ++ operatorIn

def operatorRegexInIgnoreCase : Operator := ignoreCasePrefix ++ operatorRegexIn

def operatorRegexInArray : Operator := operatorRegex ++ operatorInArray

def operatorRegexInArrayIgnoreCase : Operator := ignoreCasePrefix ++ operatorRegexInArray

def operatorStartsWith : Operator := toStr "sw"

def operatorStartsWithIgnoreCase : Operator := ignoreCasePrefix ++ operatorStartsWith

def operatorStartsWithIn : Operator := operatorStartsWith ++ operatorIn

def operatorStartsWithInIgnoreCase : Operator := ignoreCasePrefix ++ operatorStartsWithIn

def operatorStartsWithInArray : Operator := operatorStartsWith ++ operatorInArray

def operatorStartsWithInArrayIgnoreCase : Operator :=
  ignoreCasePrefix ++ operatorStartsWithInArray

/-- The `allOperators` membership string (`operator.go`, lines 56-88): every
valid operator surrounded by the delimiter. -/
def allOperators : Str :=
  delimiter ++ operatorAll ++
  delimiter ++ operatorAllArray ++
  delimiter ++ operatorContains ++
  delimiter ++ operatorContainsIgnoreCase ++
  delimiter ++ operatorContainsIn ++
  delimiter ++ operatorContainsInArray ++
  delimiter ++ operatorContainsInArrayIgnoreCase ++
  delimiter ++ operatorContainsInIgnoreCase ++
  delimiter ++ operatorEqualArray ++
  delimiter ++ operatorEquals ++
  delimiter ++ operatorExists ++
  delimiter ++ operatorGreaterThan ++
  delimiter ++ operatorGreaterThanOrEquals ++
  delimiter ++ operatorIn ++
  delimiter ++ operatorInArray ++
  delimiter ++ operatorLessThan ++
  delimiter ++ operatorLessThanOrEquals ++
  delimiter ++ operatorNotEquals ++
  delimiter ++ operatorNotIn ++
  delimiter ++ operatorRegex ++
  delimiter ++ operatorRegexIgnoreCase ++
  delimiter ++ operatorRegexIn ++
  delimiter ++ operatorRegexInArray ++
  delimiter ++ operatorRegexInArrayIgnoreCase ++
  delimiter ++ operatorRegexInIgnoreCase ++
  delimiter ++ operatorStartsWith ++
  delimiter ++ operatorStartsWithIgnoreCase ++
  delimiter ++ operatorStartsWithIn ++
  delimiter ++ operatorStartsWithInArray ++
  delimiter ++ operatorStartsWithInArrayIgnoreCase ++
  delimiter ++ operatorStartsWithInIgnoreCase ++
  delimiter

/-- `parseOperator` (`operator.go`, lines 90-103): split a raw key into field
name and operator; a key without the `"__"` delimiter but with a trailing
`"[]"` yields the bracket-array operator, everything else defaults to
equality.  A delimiter at position 0 (key starts with `"__"`) takes neither
branch. -/
def parseOperator (fieldName : Str) : Str × Operator :=
  match goIndex fieldName delimiter with
  | some pos =>
    if pos > 0 then (fieldName.take pos, fieldName.drop (pos + delimiter.length))
    else (fieldName, operatorEquals)
  | none =>
    if goHasSuffix fieldName operatorInArray then
      (fieldName.take (fieldName.length - operatorInArray.length), operatorInArray)
    else (fieldName, operatorEquals)

/-- `operator.IsValid` (`operator.go`, lines 107-112): substring membership in
`allOperators`. -/
def IsValid (o : Operator) : Bool := goContains allOperators o

/-- `operator.Is` (`operator.go`, lines 140-162): subsumption between
operators. -/
def Is (o op : Operator) : Bool :=
  if goHasSuffix op operatorInArray then goHasSuffix o op
  else if o = operatorAllArray then (op = operatorAll || op = o)
  else
    let s := goReplaceAll o operatorInArray operatorIn
    let s := if !goHasPrefix op ignoreCasePrefix then goTrimPrefix s ignoreCasePrefix else s
    if op = operatorIn then goHasSuffix s operatorIn else goHasPrefix s op

/-- `operator.CommonOperator` (`operator.go`, lines 164-175): canonical form;
bracket spellings are rewritten to the word-suffix `in` spelling and the
all-bracket operator to plain `all`. -/
def CommonOperator (o : Operator) : Operator :=
  if !Is o operatorInArray then o
  else if o = operatorAllArray then operatorAll
  else goTrimSuffix o operatorInArray ++ operatorIn

/-- `operator.IsMultiVal` (`operator.go`, lines 114-119). -/
def IsMultiVal (o : Operator) : Bool :=
  Is o operatorIn || Is o operatorAll || o = operatorEqualArray

/-- `operator.NeedSplitString` (`operator.go`, lines 121-125). -/
def NeedSplitString (o : Operator) : Bool :=
  IsMultiVal o && !Is o operatorInArray

/-- `operator.SingleValueOperator` (`operator.go`, lines 127-138). -/
def SingleValueOperator (o : Operator) : Operator :=
  let commonOp := CommonOperator o
  if commonOp = operatorIn || commonOp = operatorAll || commonOp = operatorEquals then
    operatorEquals
  else goTrimSuffix commonOp operatorIn

/-- `operator.IsRegex` (`operator.go`, lines 177-181). -/
def IsRegex (o : Operator) : Bool := Is o operatorRegex

/-- `operator.IsStartsWith` (`operator.go`, lines 183-187). -/
def IsStartsWith (o : Operator) : Bool := Is o operatorStartsWith

/-- `operator.IsContains` (`operator.go`, lines 189-192). -/
def IsContains (o : Operator) : Bool := Is o operatorContains

/-- `operator.IsIgnoreCaseOperator` (`operator.go`, lines 194-202). -/
def IsIgnoreCaseOperator (o : Operator) : Bool :=
  o = operatorContainsInIgnoreCase ||
  o = operatorContainsIgnoreCase ||
  o = operatorRegexIgnoreCase ||
  o = operatorRegexInIgnoreCase ||
  o = operatorStartsWithIgnoreCase ||
  o = operatorStartsWithInIgnoreCase

/-- Body of `operator.MongoOperator` for the non-`all[]` case (`operator.go`,
lines 210-221); the `all[]` case recurses into this body at `all`, which the
wrapper `MongoOperator` below expresses directly. -/
def mongoOperatorPlain (o : Operator) : Str :=
  if IsMultiVal o && o ≠ operatorAll && o ≠ operatorEqualArray && o ≠ operatorNotIn then
    mongoOpPrefix ++ operatorIn
  else if o = operatorEqualArray || IsContains o || IsRegex o || IsStartsWith o then
    mongoOpPrefix ++ operatorEquals
  else mongoOpPrefix ++ o

/-- `operator.MongoOperator` (`operator.go`, lines 204-221): `all[]` delegates
to `all` (which never re-enters the `all[]` branch), everything else uses the
body above. -/
def MongoOperator (o : Operator) : Str :=
  if o = operatorAllArray then mongoOperatorPlain operatorAll
  else mongoOperatorPlain o

/-- `operator.RegexOpts` (`operator.go`, lines 223-230). -/
def RegexOpts (o : Operator) : Str :=
  if IsIgnoreCaseOperator o then ignoreCasePrefix else []

/-- The closed vocabulary of valid operators: exactly the tokens enumerated
between delimiters in `allOperators` (`operator.go`, lines 56-88). -/
def validOperators : List Operator :=
  [operatorAll, operatorAllArray, operatorContains, operatorContainsIgnoreCase,
   operatorContainsIn, operatorContainsInArray, operatorContainsInArrayIgnoreCase,
   operatorContainsInIgnoreCase, operatorEqualArray, operatorEquals, operatorExists,
   operatorGreaterThan, operatorGreaterThanOrEquals, operatorIn, operatorInArray,
   operatorLessThan, operatorLessThanOrEquals, operatorNotEquals, operatorNotIn,
   operatorRegex, operatorRegexIgnoreCase, operatorRegexIn, operatorRegexInArray,
   operatorRegexInArrayIgnoreCase, operatorRegexInIgnoreCase, operatorStartsWith,
   operatorStartsWithIgnoreCase, operatorStartsWithIn, operatorStartsWithInArray,
   operatorStartsWithInArrayIgnoreCase, operatorStartsWithInIgnoreCase]

/-! ## Errors (`query.go`, lines 8-28) and values

Go error wrapping (`fmt.Errorf("...: %w", err)`) only decorates messages; the
library's callers distinguish errors with `errors.Is`, so the model keeps the
base error value and drops the message decoration. -/

/-- The library's sentinel errors, plus the two `strconv` error kinds
(`strconv.ErrSyntax`, `strconv.ErrRange`) surfaced by `parseIntParam`. -/
inductive Err where
  | noMatch
  | unknownOperator
  | noFieldSpec
  | noConverter
  | noSortField
  | missingField
  | tooManyValues
  | numSyntax
  | numRange
  deriving DecidableEq, Repr

/-- Dynamically-typed values (`interface{}`) flowing through the library: the
inferred scalar types produced by `convert.go`, the caller-supplied primitive
values (object identifiers, regular expressions, sort elements), arrays
(`[]interface{}`), documents (`M`), and Go's nil interface.  A float's value
is kept as its lexical form: no claim inspects floating-point arithmetic.  A
date is kept as its parsed calendar/clock fields. -/
inductive Val where
  | null
  | str (s : Str)
  | int (n : Int)
  | bool (b : Bool)
  | float (lit : Str)
  | date (y mo d hh mi ss : Nat) (frac : Str) (offsMin : Int)
  | oid (s : Str)
  | regex (pattern opts : Str)
  | arr (elems : List Val)
  | doc (entries : List (Str × Val))

instance : Inhabited Val := ⟨Val.null⟩

/-! ## Value conversion chain (`convert.go`) -/

/-- `ConvertFunc` (`convert.go`, line 18): check a string and convert it. -/
abbrev ConvertFunc := Str → Except Err Val

/-- The caller-supplied `Primitives` capability set (`convert.go`, lines
29-36): factories for regular expressions, object identifiers and sort
document elements. -/
structure Primitives where
  regEx : Str → Str → Except Err Val
  objectID : Str → Except Err Val
  docElem : Str → Val → Except Err Val

/-- `String()` (`convert.go`, lines 38-43): unconditional passthrough. -/
def goString : ConvertFunc := fun val => .ok (.str val)

/-- Decimal digit run to a natural number. -/
def digitsToNat (ds : Str) : Nat :=
  ds.foldl (fun a c => a * 10 + (c.toNat - '0'.toNat)) 0

/-- Go `strconv.ParseInt(s, 10, bitSize)`: returns the parsed value together
with an optional error; on a syntax error the value is 0, on a range error it
is the nearest bound (Go returns the clamped value alongside `ErrRange`).
Go's base-10 integer syntax: an optional sign followed by one or more
decimal digits. -/
def goParseInt (s : Str) (bitSize : Nat) : Int × Option Err :=
  let (neg, digits) : Bool × Str :=
    match s with
    | '+' :: rest => (false, rest)
    | '-' :: rest => (true, rest)
    | rest => (false, rest)
  if digits.isEmpty || !digits.all Char.isDigit then (0, some .numSyntax)
  else
    let v : Int := if neg then -(digitsToNat digits : Int) else (digitsToNat digits : Int)
    let maxV : Int := 2 ^ (bitSize - 1) - 1
    let minV : Int := -(2 ^ (bitSize - 1))
    if v > maxV then (maxV, some .numRange)
    else if v < minV then (minV, some .numRange)
    else (v, none)

/-- `Int()` (`convert.go`, lines 45-50): `strconv.ParseInt(val, 10, 64)`. -/
def goInt : ConvertFunc := fun val =>
  match goParseInt val 64 with
  | (v, none) => .ok (.int v)
  | (_, some e) => .error e

/-- Whether `s` is a run of one or more decimal digits. -/
def allDigits (s : Str) : Bool := !s.isEmpty && s.all Char.isDigit

/-- Acceptance of Go `strconv.ParseFloat(s, 64)` for ordinary decimal
literals: an optional sign, then a mantissa holding at least one digit and at
most one point, then an optional exponent; or a signed infinity / NaN
keyword.  (Go additionally accepts hexadecimal floats and digit-group
underscores; no input the claims touch is of those shapes.) -/
def goParseFloatAccepts (s : Str) : Bool :=
  let body : Str := match s with
    | '+' :: rest => rest
    | '-' :: rest => rest
    | rest => rest
  let lower := body.map Char.toLower
  if lower = toStr "inf" || lower = toStr "infinity" || lower = toStr "nan" then true
  else
    let mant := body.takeWhile (fun c => c.isDigit || c = '.')
    let rest := body.dropWhile (fun c => c.isDigit || c = '.')
    (mant.any Char.isDigit) &&
    ((mant.filter (fun c => c = '.')).length ≤ 1) &&
    (match rest with
     | [] => true
     | 'e' :: ex => match ex with
       | '+' :: ds => allDigits ds
       | '-' :: ds => allDigits ds
       | ds => allDigits ds
     | 'E' :: ex => match ex with
       | '+' :: ds => allDigits ds
       | '-' :: ds => allDigits ds
       | ds => allDigits ds
     | _ => false)

/-- `Double()` (`convert.go`, lines 52-57): `strconv.ParseFloat(val, 64)`;
the float's value is kept as its lexical form. -/
def goDouble : ConvertFunc := fun val =>
  if goParseFloatAccepts val then .ok (.float val) else .error .numSyntax

/-- Go `strings.ToLower` restricted to ASCII (every input the library's
boolean converter distinguishes is ASCII). -/
def goToLower (s : Str) : Str := s.map Char.toLower

/-- `Bool()` (`convert.go`, lines 59-71): `true`/`yes` and `false`/`no`,
case-insensitively; anything else is `ErrNoMatch`. -/
def goBool : ConvertFunc := fun val =>
  if goToLower val = toStr "true" || goToLower val = toStr "yes" then .ok (.bool true)
  else if goToLower val = toStr "false" || goToLower val = toStr "no" then .ok (.bool false)
  else .error .noMatch

/-- Hexadecimal digit (the character class `[0-9a-fA-F]`). -/
def isHexDigitChar (c : Char) : Bool :=
  c.isDigit || ('a' ≤ c && c ≤ 'f') || ('A' ≤ c && c ≤ 'F')

/-- `ObjectID(primitive)` (`convert.go`, lines 73-86): the regular expression
`^[0-9a-fA-F]{12}` must match — i.e. the value starts with at least 12
hexadecimal characters — before the caller-supplied factory is invoked. -/
def goObjectID (p : Primitives) : ConvertFunc := fun val =>
  if (val.take 12).length = 12 && (val.take 12).all isHexDigitChar then p.objectID val
  else .error .noMatch

/-- Leap year (Gregorian). -/
def isLeapYear (y : Nat) : Bool := y % 4 = 0 && (y % 100 ≠ 0 || y % 400 = 0)

/-- Days in a month, as Go's `time` package validates a parsed day. -/
def daysIn (mo y : Nat) : Nat :=
  if mo = 2 then (if isLeapYear y then 29 else 28)
  else if mo = 4 || mo = 6 || mo = 9 || mo = 11 then 30
  else 31

/-- Read exactly `n` decimal digits from the front of `s`. -/
def readFixedNat (n : Nat) (s : Str) : Option (Nat × Str) :=
  let ds := s.take n
  if ds.length = n && ds.all Char.isDigit then some (digitsToNat ds, s.drop n) else none

/-- Expect a single literal character. -/
def expectChar (c : Char) : Str → Option Str
  | x :: rest => if x = c then some rest else none
  | [] => none

/-- Parse the `2006-01-02` portion of a layout, with Go's range validation of
month and day. -/
def parseDatePart (s : Str) : Option (Nat × Nat × Nat × Str) :=
  match readFixedNat 4 s with
  | none => none
  | some (y, s1) =>
    match expectChar '-' s1 with
    | none => none
    | some s2 =>
      match readFixedNat 2 s2 with
      | none => none
      | some (mo, s3) =>
        match expectChar '-' s3 with
        | none => none
        | some s4 =>
          match readFixedNat 2 s4 with
          | none => none
          | some (d, s5) =>
            if 1 ≤ mo && mo ≤ 12 && 1 ≤ d && d ≤ daysIn mo y then some (y, mo, d, s5)
            else none

/-- Parse the `15:04:05` portion of a layout, with Go's range validation. -/
def parseClockPart (s : Str) : Option (Nat × Nat × Nat × Str) :=
  match readFixedNat 2 s with
  | none => none
  | some (hh, s1) =>
    match expectChar ':' s1 with
    | none => none
    | some s2 =>
      match readFixedNat 2 s2 with
      | none => none
      | some (mi, s3) =>
        match expectChar ':' s3 with
        | none => none
        | some s4 =>
          match readFixedNat 2 s4 with
          | none => none
          | some (ss, s5) =>
            if hh ≤ 23 && mi ≤ 59 && ss ≤ 59 then some (hh, mi, ss, s5) else none

/-- Go's parse-time leniency: immediately after the seconds field an input may
carry a fractional-second field (`.` or `,` then digits) whether or not the
layout mentions one.  Returns the fraction digits and the rest. -/
def parseFracPart (s : Str) : Str × Str :=
  match s with
  | c :: rest =>
    if (c = '.' || c = ',') && !(rest.takeWhile Char.isDigit).isEmpty then
      (rest.takeWhile Char.isDigit, rest.dropWhile Char.isDigit)
    else ([], s)
  | [] => ([], s)

/-- Parse a `-0700` numeric zone: a sign and four digits, yielding the offset
in minutes. -/
def parseZonePart (s : Str) : Option (Int × Str) :=
  match s with
  | '+' :: rest =>
    match readFixedNat 2 rest with
    | none => none
    | some (zh, s1) =>
      match readFixedNat 2 s1 with
      | none => none
      | some (zm, s2) => some ((zh * 60 + zm : Nat), s2)
  | '-' :: rest =>
    match readFixedNat 2 rest with
    | none => none
    | some (zh, s1) =>
      match readFixedNat 2 s1 with
      | none => none
      | some (zm, s2) => some (-((zh * 60 + zm : Nat) : Int), s2)
  | _ => none

/-- `time.Parse` with layout `"2006-01-02"` (`dateFmt`). -/
def timeParseDateFmt (s : Str) : Option Val :=
  match parseDatePart s with
  | some (y, mo, d, []) => some (.date y mo d 0 0 0 [] 0)
  | _ => none

/-- `time.Parse` with layout `"2006-01-02T15:04:05Z"` (`utcTimeFmt`): the `Z`
is a literal in this layout; a fractional second after the seconds field is
accepted by Go's parser leniency. -/
def timeParseUTCTimeFmt (s : Str) : Option Val :=
  match parseDatePart s with
  | some (y, mo, d, s1) =>
    match expectChar 'T' s1 with
    | none => none
    | some s2 =>
      match parseClockPart s2 with
      | none => none
      | some (hh, mi, ss, s3) =>
        let (frac, s4) := parseFracPart s3
        match expectChar 'Z' s4 with
        | some [] => some (.date y mo d hh mi ss frac 0)
        | _ => none
  | none => none

/-- `time.Parse` with layout `"2006-01-02T15:04:05Z-0700"` (`timeFmt`):
the literal `Z` followed by a numeric zone offset. -/
def timeParseTimeFmt (s : Str) : Option Val :=
  match parseDatePart s with
  | some (y, mo, d, s1) =>
    match expectChar 'T' s1 with
    | none => none
    | some s2 =>
      match parseClockPart s2 with
      | none => none
      | some (hh, mi, ss, s3) =>
        let (frac, s4) := parseFracPart s3
        match expectChar 'Z' s4 with
        | none => none
        | some s5 =>
          match parseZonePart s5 with
          | some (offs, []) => some (.date y mo d hh mi ss frac offs)
          | _ => none
  | none => none

/-- `time.Parse` with layout `"2006-01-02T15:04:05.999Z"`
(`utcTimeWithNsecFmt`): Go's `.999` layout fraction is optional when parsing
and the bare-`Z` layout already tolerates an input fraction, so the accepted
language coincides with `utcTimeFmt`'s. -/
def timeParseUTCTimeWithNsecFmt (s : Str) : Option Val := timeParseUTCTimeFmt s

/-- `time.Parse` with layout `"2006-01-02T15:04:05.999Z-0700"`
(`timeWithNsecFmt`); as above, it accepts the same language as `timeFmt`. -/
def timeParseTimeWithNsecFmt (s : Str) : Option Val := timeParseTimeFmt s

/-- The `formats` slice of `Date()` (`convert.go`, lines 99-102), in source
order. -/
def dateFormats : List (Str → Option Val) :=
  [timeParseDateFmt, timeParseUTCTimeFmt, timeParseTimeFmt,
   timeParseUTCTimeWithNsecFmt, timeParseTimeWithNsecFmt]

/-- The format loop of `Date()` (`convert.go`, lines 104-112). -/
def tryFormats : List (Str → Option Val) → Str → Except Err Val
  | [], _ => .error .noMatch
  | f :: rest, val =>
    match f val with
    | some t => .ok t
    | none => tryFormats rest val

/-- `Date()` (`convert.go`, lines 88-113): try the known layouts in order,
`ErrNoMatch` when none fits. -/
def goDate : ConvertFunc := fun val => tryFormats dateFormats val

/-- `TypeConverter` (`convert.go`, lines 115-123).  The Go `Bool` field is
named `boolFn` here; `primitives` is `none` for a nil `Primitives`
interface. -/
structure TypeConverter where
  boolFn : ConvertFunc
  primitives : Option Primitives
  funcs : List ConvertFunc

/-- `NewConverter` (`convert.go`, lines 128-148): the `ObjectID` converter is
prepended only when primitives are supplied, and nil converter entries are
dropped. -/
def NewConverter (boolConvert : ConvertFunc) (p : Option Primitives)
    (convert : List (Option ConvertFunc)) : TypeConverter :=
  { boolFn := boolConvert
    primitives := p
    funcs := (match p with
              | some pp => [goObjectID pp]
              | none => []) ++ convert.filterMap id }

/-- `NewDefaultConverter` (`convert.go`, lines 150-154). -/
def NewDefaultConverter (p : Option Primitives) : TypeConverter :=
  NewConverter goBool p [some goInt, some goDouble, some goDate, some goString]

/-- The converter loop of `TypeConverter.Convert` (`convert.go`, lines
162-168). -/
def tryFuncs : List ConvertFunc → Str → Except Err Val
  | [], _ => .error .noMatch
  | f :: rest, val =>
    match f val with
    | .ok i => .ok i
    | .error _ => tryFuncs rest val

/-- `TypeConverter.Convert` (`convert.go`, lines 156-169): the boolean
converter first, then the `Funcs` chain; the first success wins. -/
def TypeConverter.Convert (c : TypeConverter) (val : Str) : Except Err Val :=
  match c.boolFn val with
  | .ok i => .ok i
  | .error _ => tryFuncs c.funcs val

/-! ## Association-list model of Go maps

Keys are `Str`; insertion preserves the position of an existing key and
appends a fresh one.  Go map iteration order is unspecified; folds below
iterate in insertion order (see the module comment). -/

/-- Lookup (`m[k]`, with the `ok` flag expressed as `Option`). -/
def mapGet {α : Type} : List (Str × α) → Str → Option α
  | [], _ => none
  | (k', v') :: rest, k => if k' = k then some v' else mapGet rest k

/-- Update-or-insert (`m[k] = v`). -/
def mapPut {α : Type} : List (Str × α) → Str → α → List (Str × α)
  | [], k, v => [(k, v)]
  | (k', v') :: rest, k, v =>
    if k' = k then (k, v) :: rest else (k', v') :: mapPut rest k v

/-- Deletion (`delete(m, k)`). -/
def mapDel {α : Type} : List (Str × α) → Str → List (Str × α)
  | [], _ => []
  | (k', v') :: rest, k => if k' = k then rest else (k', v') :: mapDel rest k

/-! ## Field specifications (`fields.go`) -/

/-- `Field` (`fields.go`, lines 3-9); the Go `Converter` interface value may
be nil, hence `Option`. -/
structure FieldSpec where
  converter : Option ConvertFunc
  required : Bool

/-- `Fields` (`fields.go`, line 12). -/
abbrev Fields := List (Str × FieldSpec)

/-- `Fields.HasField` (`fields.go`, lines 14-20). -/
def hasFieldSpec (f : Fields) (name : Str) : Bool := (mapGet f name).isSome

/-- `Fields.Converter` (`fields.go`, lines 22-30): the specified converter
(possibly nil) together with the presence flag. -/
def fieldsConverter (f : Fields) (name : Str) : Option ConvertFunc × Bool :=
  match mapGet f name with
  | some field => (field.converter, true)
  | none => (none, false)

/-! ## Filter assembly (`query.go`) -/

/-- `M`, the filter document (`map[string]interface{}`), as an ordered
association list. -/
abbrev M := List (Str × Val)

/-- `appendArray` (`query.go`, current version): flatten-and-concatenate two
dynamic values into one array.  `Val.null` is Go's nil interface. -/
def appendArray : Val → Val → Val
  | .arr fa, .arr va => .arr (fa ++ va)
  | .arr fa, values => .arr (fa ++ [values])
  | .null, .arr va => .arr va
  | array, .arr va => .arr (array :: va)
  | .null, values => .arr [values]
  | array, values => .arr [array, values]

/-- Whether a dynamic value is Go's nil interface. -/
def isNullVal : Val → Bool
  | .null => true
  | _ => false

/-- `addField` (`query.go`, current version): merge one (field, operator,
value) triple into the filter document.  A bare entry stays bare under `eq`;
a non-`eq` operator promotes it to a nested document with the old value under
`$eq`; multi-value operators concatenate onto the existing array under their
mongo symbol. -/
def addField (filter : M) (field : Str) (op : Operator) (val : Val) : M :=
  let m := filter
  let f : Val := (mapGet m field).getD .null
  match f with
  | .doc mm =>
    let val :=
      if IsMultiVal op then appendArray ((mapGet mm (MongoOperator op)).getD .null) val
      else val
    mapPut m field (.doc (mapPut mm (MongoOperator op) val))
  | _ =>
    if op = operatorEquals then mapPut m field val
    else
      let mm : M := if !isNullVal f then [(MongoOperator operatorEquals, f)] else []
      let val :=
        if IsMultiVal op then appendArray ((mapGet mm (MongoOperator op)).getD .null) val
        else val
      mapPut m field (.doc (mapPut mm (MongoOperator op) val))

/-- `Query` (`query.go`, current version): filter document, ordered sort
sequence (elements built by the caller-supplied `docElem` factory), limit and
skip. -/
structure Query where
  filter : M
  sort : List Val
  limit : Int
  skip : Int

/-- The empty `Query` zero value. -/
def emptyQuery : Query := { filter := [], sort := [], limit := 0, skip := 0 }

/-- `Query.AddFilter` (`query.go`). -/
def Query.AddFilter (q : Query) (field : Str) (op : Operator) (value : Val) : Query :=
  { q with filter := addField q.filter field op value }

/-- Sort direction constants (parser file `const` block). -/
def sortAsc : Int := 1

def sortDesc : Int := -1

def sortAscMarker : Str := toStr "+"

def sortDescMarker : Str := toStr "-"

/-- Modelled from the spec: the current slice-backed `Query.AddSort` is not
among the source files (only its tests and its caller in `Parser.Parse`
are).  Per the spec (§4.5): a leading `-` marks descending order and is
stripped from the field name, a leading `+` or no marker means ascending;
each resolved (field, direction) pair is appended, in encounter order, to the
Query's sort sequence via the caller-supplied factory turning
(field, direction-as-integer) into a sortable element; the factory may fail,
in which case no element is appended and the failure is surfaced. -/
def Query.AddSort (q : Query) (val : Str) (docElem : Str → Val → Except Err Val) :
    Str × Except Err Query :=
  let fieldName := goTrimPrefix val sortAscMarker
  let (sortDirection, fieldName) :=
    if goHasPrefix fieldName sortDescMarker then (sortDesc, fieldName.drop 1)
    else (sortAsc, fieldName)
  match docElem fieldName (.int sortDirection) with
  | .error e => (fieldName, .error e)
  | .ok el => (fieldName, .ok { q with sort := q.sort ++ [el] })

/-! ## Extractor, normalizer and parser (the parser file, current version) -/

/-- Reserved directive names (parser file `const` block). -/
def limitParam : Str := toStr "limit"

def skipParam : Str := toStr "skip"

def sortParam : Str := toStr "sort"

/-- `url.Values`: the raw parameter multimap, with insertion-ordered keys and
each key's values in arrival order. -/
abbrev UrlValues := List (Str × List Str)

/-- `url.Values.Get`: first value of the key, empty string when absent. -/
def urlValuesGet (params : UrlValues) (key : Str) : Str :=
  match mapGet params key with
  | some (x :: _) => x
  | _ => []

/-- `operatorsMap` (parser file). -/
abbrev OperatorsMap := List (Operator × List Str)

/-- `fieldsMap` (parser file). -/
abbrev FieldsMap := List (Str × OperatorsMap)

/-- Per-field half of `normailzeFields` (parser file, lines 371-393 of the
current version): group raw spellings under their canonical operator —
comma-splitting a lone value only when the raw spelling requires it — then
downgrade any multi-value canonical operator left with exactly one value to
its single-value form. -/
def normalizeFieldOps (ops : OperatorsMap) : OperatorsMap :=
  let ff : OperatorsMap := ops.foldl
    (fun ff oparr =>
      let cop := CommonOperator oparr.1
      let arr :=
        if oparr.2.length = 1 && NeedSplitString oparr.1 then
          goSplit (oparr.2.headD []) arrayDelimiter
        else oparr.2
      mapPut ff cop ((mapGet ff cop).getD [] ++ arr))
    []
  ff.foldl
    (fun ff2 oparr =>
      if oparr.2.length ≠ 1 || !IsMultiVal oparr.1 then ff2
      else mapDel (mapPut ff2 (SingleValueOperator oparr.1) oparr.2) oparr.1)
    ff

/-- `normailzeFields` (parser file, lines 368-397 of the current version;
the Go second loop iterates the map being mutated, but every entry it inserts
is single-valued and not multi-value, so iterating the first loop's snapshot
is equivalent). -/
def normailzeFields (fields : FieldsMap) : FieldsMap :=
  fields.foldl (fun normalized fops => mapPut normalized fops.1 (normalizeFieldOps fops.2)) []

/-- Bracket-path rewriting in `extractFields`: `map[like][field]` becomes
`struct.like.field` (`strings.ReplaceAll` twice). -/
def bracketRewrite (field : Str) : Str :=
  goReplaceAll (goReplaceAll field (toStr "[") (toStr ".")) (toStr "]") []

/-- `extractFields` (parser file, lines 399-429 of the current version):
group raw values by (rewritten field, raw operator), skipping every key that
starts with the `"__"` delimiter, then normalize. -/
def extractFields (query : UrlValues) : FieldsMap :=
  let fields : FieldsMap := query.foldl
    (fun fields kv =>
      if goHasPrefix kv.1 delimiter then fields
      else
        let (field0, op) := parseOperator kv.1
        let field := bracketRewrite field0
        let f := (mapGet fields field).getD []
        let f :=
          match mapGet f op with
          | some arr => mapPut f op (arr ++ kv.2)
          | none => mapPut f op kv.2
        mapPut fields field f)
    []
  normailzeFields fields

/-- `mapValues` (parser file, lines 431-441): convert every value, aborting
on the first failure. -/
def mapValues (values : List Str) (c : ConvertFunc) : Except Err (List Val)
  := match values with
  | [] => .ok []
  | v :: rest =>
    match c v with
    | .error e => .error e
    | .ok i =>
      match mapValues rest c with
      | .error e => .error e
      | .ok is => .ok (i :: is)

/-- `convertArray` (parser file, lines 443-460 of the current version): a nil
converter is `ErrNoConverter`; multi-value operators convert element-wise; a
single-value operator rejects more than one value and converts one; zero
values yield Go's `(nil, nil)`. -/
def convertArray (v : List Str) (op : Operator) (c : Option ConvertFunc) : Except Err Val :=
  match c with
  | none => .error .noConverter
  | some conv =>
    if IsMultiVal op then (mapValues v conv).map .arr
    else if v.length > 1 then .error .tooManyValues
    else
      match v with
      | [val] => conv val
      | _ => .ok .null

/-- `parseIntParam` (parser file, lines 462-472): read `__name` and parse it
as a 31-bit integer; an empty or absent value silently stays zero.  Like Go,
a range error still carries the clamped value. -/
def parseIntParam (params : UrlValues) (name : Str) : Int × Option Err :=
  let str := urlValuesGet params (delimiter ++ name)
  if str.length ≠ 0 then goParseInt str 31 else (0, none)

/-- The metacharacters escaped by `Parser.regEscape` (parser file, lines
474-496). -/
def replaceChars : Str := toStr ".*?+^$[](){}|-"

/-- `Parser.regEscape`: prepend a backslash to every regex metacharacter (the
`strings.Replacer` maps each metacharacter to its escaped form; with
single-character patterns that is a character-wise rewrite). -/
def regEscape (val : Str) : Str :=
  val.foldr (fun c acc => if replaceChars.contains c then '\\' :: c :: acc else c :: acc) []

/-- `Parser` (parser file, lines 349-362): the default converter (a possibly
nil pointer), the field specifications and the strict-validation flag.  The
`sync.Once` escape-table state is modelled by `regEscape` being pure. -/
structure Parser where
  converter : Option TypeConverter
  fields : Fields
  validateFields : Bool

/-- `Parser.regex` (parser file, lines 498-508): nil when the parser has no
primitives, otherwise a converter that feeds the translated value to the
caller-supplied regex factory. -/
def Parser.regex (p : Parser) (reOptions : Str) (translate : Str → Str) :
    Option ConvertFunc :=
  match p.converter with
  | none => none
  | some c =>
    match c.primitives with
    | none => none
    | some prim => some (fun val => prim.regEx (translate val) reOptions)

/-- `nop` (parser file, lines 510-512). -/
def nop : Str → Str := fun a => a

/-- `sw` (parser file, lines 514-516): prepend the start anchor. -/
def sw (f : Str → Str) : Str → Str := fun a => '^' :: f a

/-- `Parser.convert` (parser file, lines 518-555 of the current version).
An invalid operator and (in strict mode) an unconfigured field fail early;
an unconfigured field falls back to the parser-wide converter, with `exists`
coerced through its boolean converter; regex/contains/starts-with operators
replace the converter with a synthesized pattern factory.  (When
`p.converter` is nil Go would fault dereferencing it on the `exists` /
fallback paths; the model returns the nil converter, and no claim exercises
that state.) -/
def Parser.convert (p : Parser) (field : Str) (op : Operator) (v : List Str) :
    Except Err Val :=
  if !IsValid op then .error .unknownOperator
  else
    let lk := fieldsConverter p.fields field
    if !lk.2 && p.validateFields then .error .noFieldSpec
    else
      let conv : Option ConvertFunc :=
        if lk.2 then lk.1
        else if op = operatorExists then p.converter.map (·.boolFn)
        else p.converter.map TypeConverter.Convert
      let conv :=
        if IsRegex op then p.regex (RegexOpts op) nop
        else if IsContains op then p.regex (RegexOpts op) regEscape
        else if IsStartsWith op then p.regex (RegexOpts op) (sw regEscape)
        else conv
      convertArray v op conv

/-- `getSortFields` (parser file, lines 557-572): the repeatable `__sort`
values, each comma-split, concatenated in encounter order. -/
def getSortFields (params : UrlValues) : List Str :=
  match mapGet params (delimiter ++ sortParam) with
  | none => []
  | some sortParams =>
    sortParams.foldl (fun acc param => acc ++ goSplit param arrayDelimiter) []

/-- `Parser.parseFilter` (parser file, lines 574-602 of the current
version): convert every extracted (field, operator, values) group —
collecting failures and adding successes to the filter — then report every
required field missing from the filter. -/
def Parser.parseFilter (p : Parser) (query : UrlValues) : Query × List Err :=
  let fields := extractFields query
  let start : Query × List Err := (emptyQuery, [])
  let qe := fields.foldl
    (fun acc fops =>
      fops.2.foldl
        (fun acc opvals =>
          match p.convert fops.1 opvals.1 opvals.2 with
          | .error e => (acc.1, acc.2 ++ [e])
          | .ok value => (acc.1.AddFilter fops.1 opvals.1 value, acc.2))
        acc)
    start
  let errs := p.fields.foldl
    (fun errs fs =>
      if fs.2.required && (mapGet qe.1.filter fs.1).isNone then errs ++ [Err.missingField]
      else errs)
    qe.2
  (qe.1, errs)

/-- One step of the sort loop in `Parser.Parse` (parser file, lines 627-637):
append the sort element (unless the factory fails, which is collected), then
optionally flag an unconfigured sort field in strict mode. -/
def sortStep (p : Parser) (prim : Primitives) (acc : Query × List Err) (srt : Str) :
    Query × List Err :=
  let (sortField, res) := acc.1.AddSort srt prim.docElem
  match res with
  | .error e => (acc.1, acc.2 ++ [e])
  | .ok q' =>
    if p.validateFields && !hasFieldSpec p.fields sortField then
      (q', acc.2 ++ [Err.noSortField])
    else (q', acc.2)

/-- `Parser.Parse` (parser file, lines 604-645 of the current version): the
filter pass, then the `__limit` and `__skip` directives, then the sort loop;
every failure is collected into one aggregated error list and never stops the
remaining passes. -/
def Parser.Parse (p : Parser) (params : UrlValues) : Query × List Err :=
  let (filter0, errs0) := p.parseFilter params
  let (limitV, limitE) := parseIntParam params limitParam
  let errs1 := errs0 ++ limitE.toList
  let filter1 := { filter0 with limit := limitV }
  let (skipV, skipE) := parseIntParam params skipParam
  let errs2 := errs1 ++ skipE.toList
  let filter2 := { filter1 with skip := skipV }
  let sortFields := getSortFields params
  match p.converter.bind (·.primitives) with
  | none =>
    if sortFields.length > 0 then (filter2, errs2 ++ [Err.noSortField])
    else (filter2, errs2)
  | some prim => sortFields.foldl (sortStep p prim) (filter2, errs2)

/-! ## Spec-side definitions used to state the claims -/

/-- Whether a dynamic value is a nested document. -/
def isDocVal : Val → Bool
  | .doc _ => true
  | _ => false

/-- The subsumption relation as the spec words it (with the all-bracket
exception scoped to the non-bracket branch, where the code applies it): if B
is a bracket/array spelling, A is B only if A's text ends with B's text;
otherwise, if A is the all-bracket operator, A is B only for B itself or
plain `all`; otherwise A's bracket suffix is replaced with the word-suffix
`in` spelling and its ignore-case prefix stripped unless B carries one, after
which A is B iff the transformed A ends with `in` (B exactly `in`) or starts
with B's text (any other B). -/
def specIs (a b : Operator) : Bool :=
  if goHasSuffix b operatorInArray then goHasSuffix a b
  else if a = operatorAllArray then b = operatorAll || b = a
  else
    let s :=
      if goHasSuffix a operatorInArray then goTrimSuffix a operatorInArray ++ operatorIn
      else a
    let s := if !goHasPrefix b ignoreCasePrefix then goTrimPrefix s ignoreCasePrefix else s
    if b = operatorIn then goHasSuffix s operatorIn else goHasPrefix s b

/-- The default conversion chain as the spec lists it, strictly in order:
boolean, object identifier, signed 64-bit integer, 64-bit float, the date
layouts, unconditional string passthrough. -/
def specDefaultChain (p : Primitives) : List ConvertFunc :=
  [goBool, goObjectID p, goInt, goDouble, goDate, goString]

/-- A parser with no field specifications, non-strict validation and the
default conversion chain over the given primitives. -/
def defaultParser (prim : Primitives) : Parser :=
  { converter := some (NewDefaultConverter (some prim))
    fields := []
    validateFields := false }

/-- Concrete primitives for closed evaluations: each factory builds the
corresponding `Val` and never fails. -/
def demoPrimitives : Primitives :=
  { regEx := fun pat opts => .ok (.regex pat opts)
    objectID := fun s => .ok (.oid s)
    docElem := fun k v => .ok (.doc [(k, v)]) }

/-- A parser configuring a per-field override converter (the integer
converter) for the field `age`. -/
def overrideParser : Parser :=
  { converter := some (NewDefaultConverter (some demoPrimitives))
    fields := [(toStr "age", { converter := some goInt, required := false })]
    validateFields := false }

/-- The field name a sort token resolves to: the `+` marker is stripped, then
a `-` marker is stripped. -/
def sortFieldNameOf (val : Str) : Str :=
  let fieldName := goTrimPrefix val sortAscMarker
  if goHasPrefix fieldName sortDescMarker then fieldName.drop 1 else fieldName

/-- The direction a sort token resolves to: `-1` under a `-` marker, `1`
otherwise. -/
def sortDirectionOf (val : Str) : Int :=
  let fieldName := goTrimPrefix val sortAscMarker
  if goHasPrefix fieldName sortDescMarker then sortDesc else sortAsc

/-- The query half of the sort pass of `Parser.Parse`, computed on its own:
each successfully built sort element is appended in encounter order, a failed
factory call appends nothing. -/
def sortQuery (prim : Primitives) : Query → List Str → Query
  | q, [] => q
  | q, s :: rest =>
    match prim.docElem (sortFieldNameOf s) (.int (sortDirectionOf s)) with
    | .error _ => sortQuery prim q rest
    | .ok el => sortQuery prim { q with sort := q.sort ++ [el] } rest

/-- The error half of the sort pass of `Parser.Parse`, computed on its own:
a failed factory call contributes its error, a successful one contributes a
no-sort-field error exactly when strict validation rejects the field. -/
def sortErrList (p : Parser) (prim : Primitives) : List Str → List Err
  | [] => []
  | s :: rest =>
    (match prim.docElem (sortFieldNameOf s) (.int (sortDirectionOf s)) with
     | .error e => [e]
     | .ok _ =>
       if p.validateFields && !hasFieldSpec p.fields (sortFieldNameOf s) then [Err.noSortField]
       else []) ++ sortErrList p prim rest

/-- The query `Parser.Parse` produces, assembled from the four independent
passes (filter, limit, skip, sort) with no error flow between them. -/
def parseQueryOnly (p : Parser) (params : UrlValues) : Query :=
  let base : Query :=
    { (p.parseFilter params).1 with
      limit := (parseIntParam params limitParam).1
      skip := (parseIntParam params skipParam).1 }
  match p.converter.bind (·.primitives) with
  | none => base
  | some prim => sortQuery prim base (getSortFields params)

/-- The complete error list `Parser.Parse` reports: every pass's failures,
concatenated in pass order. -/
def parseErrsOnly (p : Parser) (params : UrlValues) : List Err :=
  (p.parseFilter params).2 ++
  (parseIntParam params limitParam).2.toList ++
  (parseIntParam params skipParam).2.toList ++
  (match p.converter.bind (·.primitives) with
   | none => if (getSortFields params).length > 0 then [Err.noSortField] else []
   | some prim => sortErrList p prim (getSortFields params))

/-! ## Theorems settling the claims -/

/-! Shared evaluation facts about the concrete operators, used by several
proofs below. -/

lemma isValid_exists : IsValid operatorExists = true := by decide

lemma isRegex_exists : IsRegex operatorExists = false := by decide

lemma isContains_exists : IsContains operatorExists = false := by decide

lemma isStartsWith_exists : IsStartsWith operatorExists = false := by decide

lemma isMultiVal_exists : IsMultiVal operatorExists = false := by decide

lemma isValid_in : IsValid operatorIn = true := by decide

lemma isRegex_in : IsRegex operatorIn = false := by decide

lemma isContains_in : IsContains operatorIn = false := by decide

lemma isStartsWith_in : IsStartsWith operatorIn = false := by decide

lemma isMultiVal_in : IsMultiVal operatorIn = true := by decide

lemma needSplit_in : NeedSplitString operatorIn = true := by decide

lemma needSplit_inArray : NeedSplitString operatorInArray = false := by decide

lemma commonOperator_in : CommonOperator operatorIn = operatorIn := by decide

lemma commonOperator_inArray : CommonOperator operatorInArray = operatorIn := by decide

lemma singleValue_in : SingleValueOperator operatorIn = operatorEquals := by decide

lemma in_ne_eq : operatorIn ≠ operatorEquals := by decide

lemma isValid_eq : IsValid operatorEquals = true := by decide

lemma isRegex_eq : IsRegex operatorEquals = false := by decide

lemma isContains_eq : IsContains operatorEquals = false := by decide

lemma isStartsWith_eq : IsStartsWith operatorEquals = false := by decide

lemma isMultiVal_eq : IsMultiVal operatorEquals = false := by decide

lemma isMultiVal_inArray : IsMultiVal operatorInArray = true := by decide

lemma in_ne_exists : operatorIn ≠ operatorExists := by decide

lemma eq_ne_exists : operatorEquals ≠ operatorExists := by decide

/-- A value can never equal a document that contains it: the document's size
is strictly larger. -/
lemma val_ne_nested (k : Str) (va vb : Val) : Val.doc [(k, .arr [va, vb])] ≠ va := by
  intro h
  have hs := congrArg sizeOf h
  simp at hs
  omega

/-- `Query.AddSort` decomposed into the token's resolved field name and
direction. -/
lemma addSort_eq (q : Query) (val : Str) (de : Str → Val → Except Err Val) :
    Query.AddSort q val de = (sortFieldNameOf val,
      match de (sortFieldNameOf val) (.int (sortDirectionOf val)) with
      | .error e => .error e
      | .ok el => .ok { q with sort := q.sort ++ [el] }) := by
  unfold Query.AddSort sortFieldNameOf sortDirectionOf
  by_cases h : goHasPrefix (goTrimPrefix val sortAscMarker) sortDescMarker = true <;>
    simp [h] <;> split <;> simp_all

/-- C1: with the default parser, compiling the single parameter `f__in=a,b`
(one occurrence whose value is the comma-joined pair) yields the filter
`{f: {$in: [a, b]}}`, while compiling `f__in=a` (one occurrence, one value)
yields the bare-equality filter `{f: a}` — the grouped `in` operator left
with one value is downgraded to its single-value form — and the two filters
are never equal.  The hypotheses pin the generic field and values to the
claim's shape: the raw key splits at the delimiter into `(f, in)`, is not a
directive, carries no bracket path, the comma-joined pair splits back into
the two values, and the default chain converts `a` and `b`. -/
theorem c1_in_single_value_downgrade (prim : Primitives) (f a b : Str) (va vb : Val)
    (hkey : parseOperator (f ++ (delimiter ++ operatorIn)) = (f, operatorIn))
    (hnd : goHasPrefix (f ++ (delimiter ++ operatorIn)) delimiter = false)
    (hbr : bracketRewrite f = f)
    (hab : goSplit (a ++ (arrayDelimiter ++ b)) arrayDelimiter = [a, b])
    (ha : goSplit a arrayDelimiter = [a])
    (hca : TypeConverter.Convert (NewDefaultConverter (some prim)) a = .ok va)
    (hcb : TypeConverter.Convert (NewDefaultConverter (some prim)) b = .ok vb) :
    ((defaultParser prim).parseFilter
        [(f ++ (delimiter ++ operatorIn), [a ++ (arrayDelimiter ++ b)])]).1.filter =
      [(f, .doc [(MongoOperator operatorIn, .arr [va, vb])])] ∧
    ((defaultParser prim).parseFilter [(f ++ (delimiter ++ operatorIn), [a])]).1.filter =
      [(f, va)] ∧
    [(f, Val.doc [(MongoOperator operatorIn, .arr [va, vb])])] ≠ ([(f, va)] : M) := by
  refine ⟨?_, ?_, ?_⟩
  · simp [Parser.parseFilter, extractFields, normailzeFields, normalizeFieldOps,
      Parser.convert, convertArray, mapValues, Query.AddFilter, addField, appendArray,
      mapGet, mapPut, mapDel, fieldsConverter, defaultParser, emptyQuery, isNullVal,
      hkey, hnd, hbr, hab, hca, hcb,
      isValid_in, isRegex_in, isContains_in, isStartsWith_in, isMultiVal_in,
      needSplit_in, commonOperator_in, singleValue_in, in_ne_eq, in_ne_exists, Except.map]
  · simp [Parser.parseFilter, extractFields, normailzeFields, normalizeFieldOps,
      Parser.convert, convertArray, mapValues, Query.AddFilter, addField, appendArray,
      mapGet, mapPut, mapDel, fieldsConverter, defaultParser, emptyQuery, isNullVal,
      hkey, hnd, hbr, ha, hca,
      isValid_eq, isRegex_eq, isContains_eq, isStartsWith_eq, isMultiVal_eq,
      isValid_in, isMultiVal_in, needSplit_in, commonOperator_in, singleValue_in, in_ne_eq,
      eq_ne_exists]
  · intro h
    have h2 : Val.doc [(MongoOperator operatorIn, .arr [va, vb])] = va := by
      have := List.head_eq_of_cons_eq h
      exact (Prod.mk.injEq _ _ _ _ ▸ this).2
    exact val_ne_nested _ _ _ h2

/-- Witness for C1 at `field__in=a,b` and `field__in=a` over the demo
primitives. -/
theorem c1_in_single_value_downgrade_witness :
    parseOperator (toStr "field" ++ (delimiter ++ operatorIn)) = (toStr "field", operatorIn) ∧
    goSplit (toStr "a" ++ (arrayDelimiter ++ toStr "b")) arrayDelimiter = [toStr "a", toStr "b"] ∧
    ((defaultParser demoPrimitives).parseFilter
        [(toStr "field" ++ (delimiter ++ operatorIn),
          [toStr "a" ++ (arrayDelimiter ++ toStr "b")])]).1.filter =
      [(toStr "field",
        .doc [(MongoOperator operatorIn, .arr [.str (toStr "a"), .str (toStr "b")])])] ∧
    ((defaultParser demoPrimitives).parseFilter
        [(toStr "field" ++ (delimiter ++ operatorIn), [toStr "a"])]).1.filter =
      [(toStr "field", .str (toStr "a"))] :=
  ⟨rfl, rfl,
   (c1_in_single_value_downgrade demoPrimitives (toStr "field") (toStr "a") (toStr "b")
     (.str (toStr "a")) (.str (toStr "b")) rfl rfl rfl rfl rfl rfl rfl).1,
   (c1_in_single_value_downgrade demoPrimitives (toStr "field") (toStr "a") (toStr "b")
     (.str (toStr "a")) (.str (toStr "b")) rfl rfl rfl rfl rfl rfl rfl).2.1⟩

/-- C2: with the default parser, compiling the two repeated occurrences
`f[]=a` and `f[]=b` yields `{f: {$in: [a, b]}}`, while compiling the single
occurrence `f[]=a,b` yields the equality filter holding the converted whole
string — a bracket-spelled operator never comma-splits a lone supplied value
(whereas `__in` does, per C1); concretely, `field[]=a,b` yields the literal
string `{field: "a,b"}` under the default chain. -/
theorem c2_bracket_no_split (prim : Primitives) (f a b : Str) (va vb vab : Val)
    (hkey : parseOperator (f ++ operatorInArray) = (f, operatorInArray))
    (hnd : goHasPrefix (f ++ operatorInArray) delimiter = false)
    (hbr : bracketRewrite f = f)
    (hca : TypeConverter.Convert (NewDefaultConverter (some prim)) a = .ok va)
    (hcb : TypeConverter.Convert (NewDefaultConverter (some prim)) b = .ok vb)
    (hcab : TypeConverter.Convert (NewDefaultConverter (some prim))
      (a ++ (arrayDelimiter ++ b)) = .ok vab) :
    ((defaultParser prim).parseFilter [(f ++ operatorInArray, [a, b])]).1.filter =
      [(f, .doc [(MongoOperator operatorIn, .arr [va, vb])])] ∧
    ((defaultParser prim).parseFilter
        [(f ++ operatorInArray, [a ++ (arrayDelimiter ++ b)])]).1.filter =
      [(f, vab)] ∧
    ((defaultParser prim).parseFilter [(toStr "field[]", [toStr "a,b"])]).1.filter =
      [(toStr "field", .str (toStr "a,b"))] := by
  refine ⟨?_, ?_, rfl⟩
  · simp [Parser.parseFilter, extractFields, normailzeFields, normalizeFieldOps,
      Parser.convert, convertArray, mapValues, Query.AddFilter, addField, appendArray,
      mapGet, mapPut, mapDel, fieldsConverter, defaultParser, emptyQuery, isNullVal,
      hkey, hnd, hbr, hca, hcb,
      isValid_in, isRegex_in, isContains_in, isStartsWith_in, isMultiVal_in,
      isMultiVal_inArray, needSplit_inArray, commonOperator_inArray, singleValue_in,
      in_ne_eq, in_ne_exists, Except.map]
  · simp [Parser.parseFilter, extractFields, normailzeFields, normalizeFieldOps,
      Parser.convert, convertArray, mapValues, Query.AddFilter, addField, appendArray,
      mapGet, mapPut, mapDel, fieldsConverter, defaultParser, emptyQuery, isNullVal,
      hkey, hnd, hbr, hcab,
      isValid_eq, isRegex_eq, isContains_eq, isStartsWith_eq, isMultiVal_eq,
      isMultiVal_inArray, needSplit_inArray, commonOperator_inArray,
      isValid_in, isMultiVal_in, singleValue_in, in_ne_eq, eq_ne_exists]

/-- Witness for C2 at `field[]=a&field[]=b` and `field[]=a,b` over the demo
primitives. -/
theorem c2_bracket_no_split_witness :
    parseOperator (toStr "field" ++ operatorInArray) = (toStr "field", operatorInArray) ∧
    ((defaultParser demoPrimitives).parseFilter
        [(toStr "field" ++ operatorInArray, [toStr "a", toStr "b"])]).1.filter =
      [(toStr "field",
        .doc [(MongoOperator operatorIn, .arr [.str (toStr "a"), .str (toStr "b")])])] ∧
    ((defaultParser demoPrimitives).parseFilter
        [(toStr "field" ++ operatorInArray,
          [toStr "a" ++ (arrayDelimiter ++ toStr "b")])]).1.filter =
      [(toStr "field", .str (toStr "a,b"))] :=
  ⟨rfl,
   (c2_bracket_no_split demoPrimitives (toStr "field") (toStr "a") (toStr "b")
     (.str (toStr "a")) (.str (toStr "b")) (.str (toStr "a,b")) rfl rfl rfl rfl rfl rfl).1,
   (c2_bracket_no_split demoPrimitives (toStr "field") (toStr "a") (toStr "b")
     (.str (toStr "a")) (.str (toStr "b")) (.str (toStr "a,b")) rfl rfl rfl rfl rfl rfl).2.1⟩

/-- C3 (counterexample): the claim's closing clause — "the all-bracket
operator is an Is-match only for itself and plain `all`" — fails on the code:
`Is("all[]", "[]")` is decided by the bracket branch, which only asks whether
`"all[]"` ends with `"[]"`, so the all-bracket operator also Is-matches the
bare bracket-array operator, which is neither itself nor plain `all`. -/
theorem c3_is_subsumption_counterexample :
    Is operatorAllArray operatorInArray = true ∧
    operatorInArray ≠ operatorAllArray ∧ operatorInArray ≠ operatorAll :=
  ⟨by decide, by decide, by decide⟩

/-- C3 (amended): for all valid operators A and B, the code's `Is(A, B)`
agrees with the spec's description — B bracket-suffixed: A ends with B;
otherwise A = `all[]`: B is plain `all` (or A itself, impossible there);
otherwise compare after replacing A's bracket suffix with the word-suffix
`in` spelling and stripping A's ignore-case prefix unless B carries one,
ends-with `in` when B is exactly `in`, starts-with B otherwise.  (The
all-bracket operator therefore Is-matches exactly itself, plain `all`, and
the bare bracket-array operator.) -/
theorem c3_is_subsumption_amended :
    ∀ a ∈ validOperators, ∀ b ∈ validOperators, Is a b = specIs a b := by decide

/-- Witness for C3 (amended) at A = `ire[]`, B = `in`. -/
theorem c3_is_subsumption_amended_witness :
    operatorRegexInArrayIgnoreCase ∈ validOperators ∧ operatorIn ∈ validOperators ∧
    Is operatorRegexInArrayIgnoreCase operatorIn = specIs operatorRegexInArrayIgnoreCase operatorIn :=
  ⟨by decide, by decide,
   c3_is_subsumption_amended operatorRegexInArrayIgnoreCase (by decide) operatorIn (by decide)⟩

/-- C4 (counterexample): the multi-value predicate is not equivalent to the
canonical form being one of `in`, `all`, `eqa`: the valid operator `nin` is
multi-value (its text ends in `in`), yet its canonical form is `nin` itself,
which is none of the three. -/
theorem c4_multival_counterexample :
    IsMultiVal operatorNotIn = true ∧
    CommonOperator operatorNotIn ≠ operatorIn ∧
    CommonOperator operatorNotIn ≠ operatorAll ∧
    CommonOperator operatorNotIn ≠ operatorEqualArray :=
  ⟨by decide, by decide, by decide, by decide⟩

/-- C4 (amended): for every valid operator, the multi-value predicate is true
iff its canonical form ends with the word-suffix `in`, or is `all`, or is
`eqa`. -/
theorem c4_multival_amended :
    ∀ o ∈ validOperators,
      IsMultiVal o = (goHasSuffix (CommonOperator o) operatorIn ||
        CommonOperator o = operatorAll || CommonOperator o = operatorEqualArray) := by decide

/-- Witness for C4 (amended) at the operator `in`. -/
theorem c4_multival_amended_witness :
    operatorIn ∈ validOperators ∧
    IsMultiVal operatorIn = (goHasSuffix (CommonOperator operatorIn) operatorIn ||
      CommonOperator operatorIn = operatorAll || CommonOperator operatorIn = operatorEqualArray) :=
  ⟨by decide, c4_multival_amended operatorIn (by decide)⟩

/-- C5: the default conversion chain is exactly boolean, object identifier
(gated by the 12-hex lexical check before the caller's factory), signed
64-bit integer, 64-bit float, the date/time layouts, then unconditional
string passthrough, tried strictly in that order with the first success
winning; in particular `"123"` becomes an integer, `"yes"`/`"no"` become
booleans, `"2021-01-01"` becomes a date, and a 12-hex-character string goes
through the identifier factory rather than falling through to string. -/
theorem c5_default_chain (prim : Primitives) (w : Val)
    (hw : prim.objectID (toStr "aabbccddeeff") = .ok w) :
    (∀ val, TypeConverter.Convert (NewDefaultConverter (some prim)) val =
      tryFuncs (specDefaultChain prim) val) ∧
    TypeConverter.Convert (NewDefaultConverter (some prim)) (toStr "123") = .ok (.int 123) ∧
    TypeConverter.Convert (NewDefaultConverter (some prim)) (toStr "yes") = .ok (.bool true) ∧
    TypeConverter.Convert (NewDefaultConverter (some prim)) (toStr "no") = .ok (.bool false) ∧
    TypeConverter.Convert (NewDefaultConverter (some prim)) (toStr "2021-01-01") =
      .ok (.date 2021 1 1 0 0 0 [] 0) ∧
    TypeConverter.Convert (NewDefaultConverter (some prim)) (toStr "aabbccddeeff") = .ok w := by
  refine ⟨?_, rfl, rfl, rfl, rfl, ?_⟩
  · intro val
    cases h : goBool val <;>
      simp [TypeConverter.Convert, NewDefaultConverter, NewConverter, specDefaultChain,
        tryFuncs, h]
  · have hb : goBool (toStr "aabbccddeeff") = .error .noMatch := rfl
    have h2 : goObjectID prim (toStr "aabbccddeeff") = prim.objectID (toStr "aabbccddeeff") := rfl
    simp [TypeConverter.Convert, NewDefaultConverter, NewConverter, tryFuncs, hb, h2, hw]

/-- Witness for C5 with the concrete demo primitives, whose identifier
factory always succeeds. -/
theorem c5_default_chain_witness :
    demoPrimitives.objectID (toStr "aabbccddeeff") = .ok (.oid (toStr "aabbccddeeff")) ∧
    TypeConverter.Convert (NewDefaultConverter (some demoPrimitives)) (toStr "aabbccddeeff") =
      .ok (.oid (toStr "aabbccddeeff")) :=
  ⟨rfl, (c5_default_chain demoPrimitives _ rfl).2.2.2.2.2⟩

/-- C6 (counterexample): the `exists` operator does not always coerce through
the boolean converter.  With a per-field override converter configured (the
integer converter for `age` in `overrideParser`), `age__exists=1` converts
through the override: the result is the integer 1, not the no-match error the
claim requires for the non-boolean-shaped operand `"1"`. -/
theorem c6_exists_counterexample :
    goBool (toStr "1") = .error .noMatch ∧
    Parser.convert overrideParser (toStr "age") operatorExists [toStr "1"] = .ok (.int 1) :=
  ⟨rfl, rfl⟩

/-- C6 (amended): only when the field has no per-field specification (and
strict validation is off) does a constraint using the `exists` operator
convert its operand through the parser converter's boolean converter — so
there an operand that is not boolean-shaped produces a no-match error; a
configured per-field override converter is used instead of the boolean
coercion. -/
theorem c6_exists_amended (p : Parser) (c : TypeConverter) (field : Str) (v : Str)
    (hnf : (fieldsConverter p.fields field).2 = false)
    (hvf : p.validateFields = false)
    (hc : p.converter = some c) :
    Parser.convert p field operatorExists [v] = c.boolFn v ∧
    (∀ u, goToLower u ∉ [toStr "true", toStr "yes", toStr "false", toStr "no"] →
      goBool u = .error .noMatch) := by
  constructor
  · simp [Parser.convert, convertArray, hnf, hvf, hc, isValid_exists, isRegex_exists,
      isContains_exists, isStartsWith_exists, isMultiVal_exists]
  · intro u hu
    simp only [List.mem_cons, List.not_mem_nil, or_false, not_or] at hu
    simp [goBool, hu.1, hu.2.1, hu.2.2.1, hu.2.2.2]

/-- Witness for C6 (amended): the unconfigured field `age` of the plain
default parser, with operand `"1"`. -/
theorem c6_exists_amended_witness :
    (fieldsConverter (defaultParser demoPrimitives).fields (toStr "age")).2 = false ∧
    (defaultParser demoPrimitives).validateFields = false ∧
    (defaultParser demoPrimitives).converter = some (NewDefaultConverter (some demoPrimitives)) ∧
    Parser.convert (defaultParser demoPrimitives) (toStr "age") operatorExists [toStr "1"] =
      (NewDefaultConverter (some demoPrimitives)).boolFn (toStr "1") :=
  ⟨rfl, rfl, rfl,
   (c6_exists_amended (defaultParser demoPrimitives)
     (NewDefaultConverter (some demoPrimitives)) (toStr "age") (toStr "1") rfl rfl rfl).1⟩

/-- C7: a field's entry stays a bare value under repeated equality (an `eq`
assignment onto a non-document entry writes the bare value); the first
non-equality operator promotes the entry to a nested document with the old
bare value wrapped under the equality symbol and the new value stored under
the incoming operator's symbol (an array-wrapped copy for a multi-value
operator); and an equality value arriving while the entry is already nested
is folded in under the equality symbol rather than reverting the entry to a
bare value. -/
theorem c7_filter_promotion_invariant (m : M) (f : Str) (op : Operator) (v w : Val) (mm : M) :
    (isDocVal ((mapGet m f).getD .null) = false →
      addField m f operatorEquals v = mapPut m f v) ∧
    (mapGet m f = some w → isDocVal w = false → isNullVal w = false →
      MongoOperator op ≠ MongoOperator operatorEquals →
      addField m f op v =
        mapPut m f (.doc [(MongoOperator operatorEquals, w),
          (MongoOperator op, if IsMultiVal op then appendArray .null v else v)])) ∧
    (mapGet m f = some (.doc mm) →
      addField m f operatorEquals v =
        mapPut m f (.doc (mapPut mm (MongoOperator operatorEquals) v))) := by
  refine ⟨?_, ?_, ?_⟩
  · intro h
    cases hval : (mapGet m f).getD .null <;> simp_all [addField, isDocVal]
  · intro h1 h2 h3 hsym
    have hopne : op ≠ operatorEquals := fun he => hsym (congrArg MongoOperator he)
    have h1' : (mapGet m f).getD .null = w := by rw [h1]; rfl
    cases w <;>
      simp_all [addField, isDocVal, isNullVal, mapGet, mapPut, hopne, Ne.symm hsym]
  · intro h
    have h1' : (mapGet m f).getD .null = .doc mm := by rw [h]; rfl
    simp [addField, h1', isMultiVal_eq]

/-- Witness for C7: the three shapes at concrete filters — fresh bare entry,
bare entry promoted by `in`, nested entry receiving an equality value. -/
theorem c7_filter_promotion_invariant_witness :
    addField [] (toStr "f") operatorEquals (.int 1) = mapPut [] (toStr "f") (.int 1) ∧
    addField [(toStr "f", .int 1)] (toStr "f") operatorIn (.int 2) =
      mapPut [(toStr "f", .int 1)] (toStr "f") (.doc [(MongoOperator operatorEquals, .int 1),
        (MongoOperator operatorIn,
         if IsMultiVal operatorIn then appendArray .null (.int 2) else .int 2)]) ∧
    addField [(toStr "f", .doc [(MongoOperator operatorIn, .arr [.int 1])])] (toStr "f")
        operatorEquals (.int 3) =
      mapPut [(toStr "f", .doc [(MongoOperator operatorIn, .arr [.int 1])])] (toStr "f")
        (.doc (mapPut [(MongoOperator operatorIn, .arr [.int 1])]
          (MongoOperator operatorEquals) (.int 3))) :=
  ⟨(c7_filter_promotion_invariant [] (toStr "f") operatorEquals (.int 1) (.int 1) []).1 rfl,
   (c7_filter_promotion_invariant [(toStr "f", .int 1)] (toStr "f") operatorIn (.int 2)
     (.int 1) []).2.1 rfl rfl rfl (by decide),
   (c7_filter_promotion_invariant [(toStr "f", .doc [(MongoOperator operatorIn, .arr [.int 1])])]
     (toStr "f") operatorEquals (.int 3) (.int 3)
     [(MongoOperator operatorIn, .arr [.int 1])]).2.2 rfl⟩

/-- The sort loop of `Parser.Parse` splits into a query half and an error
half that evolve independently: a factory failure touches only the error
half, a success touches only the query half (plus a strict-mode
no-sort-field error). -/
lemma sortFold (p : Parser) (prim : Primitives) (sorts : List Str) (q : Query) (e : List Err) :
    sorts.foldl (sortStep p prim) (q, e) =
      (sortQuery prim q sorts, e ++ sortErrList p prim sorts) := by
  induction sorts generalizing q e with
  | nil => simp [sortQuery, sortErrList]
  | cons s rest ih =>
    simp only [List.foldl_cons, sortStep, addSort_eq]
    cases hde : prim.docElem (sortFieldNameOf s) (.int (sortDirectionOf s)) with
    | error e' => simp [hde, sortQuery, sortErrList, ih]
    | ok el =>
      by_cases hv : (p.validateFields && !hasFieldSpec p.fields (sortFieldNameOf s)) = true <;>
        simp [hde, hv, sortQuery, sortErrList, ih]

/-- C8: `Parser.Parse` collects failures instead of aborting.  For every
parser and every parameter multimap, the returned query equals the one
assembled from the four passes computed independently of any error (filter
fields, limit, skip, sort entries), and the returned error list is exactly
the concatenation of every pass's failures — so each local failure is
reported together with the others and suppresses nothing.  Concretely, an
unparseable `__limit=ten` alongside a good field, skip and sort still yields
the filter, the skip, the sort entry and a zero limit, with the one syntax
error reported. -/
theorem c8_error_accumulation (p : Parser) (params : UrlValues) :
    Parser.Parse p params = (parseQueryOnly p params, parseErrsOnly p params) ∧
    Parser.Parse (defaultParser demoPrimitives)
        [(toStr "name", [toStr "John"]), (toStr "__limit", [toStr "ten"]),
         (toStr "__skip", [toStr "5"]), (toStr "__sort", [toStr "a"])] =
      ({ filter := [(toStr "name", .str (toStr "John"))],
         sort := [.doc [(toStr "a", .int 1)]], limit := 0, skip := 5 },
       [Err.numSyntax]) := by
  constructor
  · rcases hpf : p.parseFilter params with ⟨q0, e0⟩
    rcases hli : parseIntParam params limitParam with ⟨lv, le⟩
    rcases hsk : parseIntParam params skipParam with ⟨sv, se⟩
    unfold Parser.Parse parseQueryOnly parseErrsOnly
    rw [hpf, hli, hsk]
    cases hpr : p.converter.bind (·.primitives) with
    | none => by_cases hs : (getSortFields params).length > 0 <;> simp [hs, List.append_assoc]
    | some prim => simp [sortFold, List.append_assoc]
  · rfl

/-- C9: a sort token with a leading `-` produces a descending entry for the
field name with the marker stripped, a leading `+` or no marker an ascending
entry, each built by the caller-supplied factory from the (field,
direction-as-integer) pair; and the entries resolved from the repeatable,
comma-joined `__sort` directives are appended to the Query's sort sequence in
encounter order, so `__sort=a,b&__sort=c` yields exactly the three entries
for `a`, `b`, `c` in that order. -/
theorem c9_sort_order (q : Query) (de : Str → Val → Except Err Val) (elAge elName : Val)
    (prim : Primitives) (vA vB vC : Val)
    (hAge : de (toStr "age") (.int sortDesc) = .ok elAge)
    (hName : de (toStr "name") (.int sortAsc) = .ok elName)
    (hA : prim.docElem (toStr "a") (.int sortAsc) = .ok vA)
    (hB : prim.docElem (toStr "b") (.int sortAsc) = .ok vB)
    (hC : prim.docElem (toStr "c") (.int sortAsc) = .ok vC) :
    Query.AddSort q (toStr "-age") de = (toStr "age", .ok { q with sort := q.sort ++ [elAge] }) ∧
    Query.AddSort q (toStr "+name") de =
      (toStr "name", .ok { q with sort := q.sort ++ [elName] }) ∧
    Query.AddSort q (toStr "name") de =
      (toStr "name", .ok { q with sort := q.sort ++ [elName] }) ∧
    ((defaultParser prim).Parse [(delimiter ++ sortParam, [toStr "a,b", toStr "c"])]).1.sort =
      [vA, vB, vC] := by
  refine ⟨?_, ?_, ?_, ?_⟩
  · rw [addSort_eq]
    have h1 : sortFieldNameOf (toStr "-age") = toStr "age" := rfl
    have h2 : sortDirectionOf (toStr "-age") = sortDesc := rfl
    rw [h1, h2, hAge]
  · rw [addSort_eq]
    have h1 : sortFieldNameOf (toStr "+name") = toStr "name" := rfl
    have h2 : sortDirectionOf (toStr "+name") = sortAsc := rfl
    rw [h1, h2, hName]
  · rw [addSort_eq]
    have h1 : sortFieldNameOf (toStr "name") = toStr "name" := rfl
    have h2 : sortDirectionOf (toStr "name") = sortAsc := rfl
    rw [h1, h2, hName]
  · have hfa : sortFieldNameOf (toStr "a") = toStr "a" := rfl
    have hfb : sortFieldNameOf (toStr "b") = toStr "b" := rfl
    have hfc : sortFieldNameOf (toStr "c") = toStr "c" := rfl
    have hda : sortDirectionOf (toStr "a") = sortAsc := rfl
    have hdb : sortDirectionOf (toStr "b") = sortAsc := rfl
    have hdc : sortDirectionOf (toStr "c") = sortAsc := rfl
    have hsplit : goSplit (toStr "a,b") arrayDelimiter = [toStr "a", toStr "b"] := rfl
    have hsplit2 : goSplit (toStr "c") arrayDelimiter = [toStr "c"] := rfl
    have hdir : goHasPrefix (delimiter ++ sortParam) delimiter = true := rfl
    simp [Parser.Parse, Parser.parseFilter, extractFields, normailzeFields, parseIntParam,
      urlValuesGet, getSortFields, sortStep, addSort_eq, mapGet, emptyQuery, defaultParser,
      hdir, hsplit, hsplit2, hfa, hfb, hfc, hda, hdb, hdc, hA, hB, hC,
      NewDefaultConverter, NewConverter]

/-- Witness for C9 over the demo primitives, whose sort-element factory
builds the one-entry document and never fails. -/
theorem c9_sort_order_witness :
    demoPrimitives.docElem (toStr "age") (.int sortDesc) =
      .ok (.doc [(toStr "age", .int sortDesc)]) ∧
    ((defaultParser demoPrimitives).Parse
        [(delimiter ++ sortParam, [toStr "a,b", toStr "c"])]).1.sort =
      [.doc [(toStr "a", .int sortAsc)], .doc [(toStr "b", .int sortAsc)],
       .doc [(toStr "c", .int sortAsc)]] :=
  ⟨rfl,
   (c9_sort_order emptyQuery demoPrimitives.docElem
     (.doc [(toStr "age", .int sortDesc)]) (.doc [(toStr "name", .int sortAsc)])
     demoPrimitives (.doc [(toStr "a", .int sortAsc)]) (.doc [(toStr "b", .int sortAsc)])
     (.doc [(toStr "c", .int sortAsc)]) rfl rfl rfl rfl rfl).2.2.2⟩

/-- C10: every parameter key that begins with the `__` delimiter — not only
the reserved directives — is skipped by filter extraction: prepending such a
key to the parameter multimap leaves `parseFilter`'s entire result (the
filter and the error list) unchanged, so the key neither contributes a field
nor produces a per-parameter error. -/
theorem c10_delimiter_keys_skipped (p : Parser) (params : UrlValues) (k : Str) (v : List Str)
    (hk : goHasPrefix k delimiter = true) :
    Parser.parseFilter p ((k, v) :: params) = Parser.parseFilter p params := by
  have h : extractFields ((k, v) :: params) = extractFields params := by
    simp [extractFields, hk]
  simp only [Parser.parseFilter, h]

/-- Witness for C10 at the unrecognized directive-like key `__sort2`. -/
theorem c10_delimiter_keys_skipped_witness :
    goHasPrefix (toStr "__sort2") delimiter = true ∧
    Parser.parseFilter (defaultParser demoPrimitives) [(toStr "__sort2", [toStr "x"])] =
      Parser.parseFilter (defaultParser demoPrimitives) [] :=
  ⟨rfl, c10_delimiter_keys_skipped (defaultParser demoPrimitives) [] (toStr "__sort2")
    [toStr "x"] rfl⟩

end MongoQuery

